import Mathlib

/-!
Verification of the paper-trading engine (`db.py`, `options.py`).

Shallow embedding of the position bookkeeping (`upsert_position`,
`upsert_option_position` in `src/db.py`) and the option order engine
(`place_option_order` in `src/options.py`).

Conventions of the embedding:
* Python floats for prices and equity quantities are modelled by `ℚ`;
  the literal `1e-9` tolerance of `upsert_position` becomes the exact
  rational `1/10^9`.  Option contract counts are Python ints, modelled by `ℤ`.
* A SQL table is a list of rows; an `INSERT` appends.  The position table is
  projected to the single `(account, symbol[, expiry, right, strike])` key an
  operation touches (the SQL statements only ever read and write that one
  row), so it is an `Option` of a row: `none` means no row exists.
* A Python `raise` becomes an `Except.error`; since `raise` happens before
  the `UPDATE`/`INSERT` of the same function, an error leaves that table
  unchanged.  `place_option_order`, however, commits each `db.execute`
  separately, so its embedding returns the state reached when an exception
  escapes: earlier inserts stay.
-/

namespace TradingApp

/-- Error values corresponding to the `raise ValueError(...)` sites of the
source, one constructor per raise site (names follow the spec's taxonomy). -/
inductive Err where
  /-- `options.py`: "Contract not found in chain." -/
  | contractNotFound
  /-- `options.py`: "No valid quote for this contract." -/
  | noQuote
  /-- `options.py`: "Limit not met for BUY." / "Limit not met for SELL." -/
  | limitNotMet
  /-- `db.py`: "Cannot sell a non-existing (option) position" -/
  | sellNonExisting
  /-- `db.py`: "Resulting position would be negative" / "Negative option position" -/
  | negativePosition
  deriving DecidableEq, Repr

/-- A row of the `positions` table (equity): `qty REAL`, `avg_price REAL`. -/
structure EquityPos where
  qty : ℚ
  avg_price : ℚ
  deriving DecidableEq, Repr

/-- A row of the `option_positions` table: `qty INTEGER`, `avg_price REAL`. -/
structure OptionPos where
  qty : ℤ
  avg_price : ℚ
  deriving DecidableEq, Repr

/-- The `-1e-9` tolerance literal of `upsert_position` in `db.py`. -/
def eqTol : ℚ := 1 / 1000000000

/-- `db.upsert_position(account_id, symbol, qty_delta, price)`, acting on the
row for the given `(account_id, symbol)` key (`none` = no row).  Mirrors
`src/db.py` lines 209-235, including the `-1e-9` tolerance, the dead
`new_qty > 0` conditional of the `qty_delta < 0` branch, and the delete at
exactly zero. -/
def upsert_position (row : Option EquityPos) (qty_delta price : ℚ) :
    Except Err (Option EquityPos) :=
  match row with
  | none =>
      if qty_delta < 0 then Except.error Err.sellNonExisting
      else Except.ok (some ⟨qty_delta, price⟩)
  | some pos =>
      let new_qty := pos.qty + qty_delta
      if new_qty < -eqTol then Except.error Err.negativePosition
      else
        let new_avg :=
          if qty_delta > 0 then
            (pos.qty * pos.avg_price + qty_delta * price) / (pos.qty + qty_delta)
          else if qty_delta < 0 then
            (if new_qty > 0 then pos.avg_price else pos.avg_price)
          else pos.avg_price
        if new_qty = 0 then Except.ok none
        else Except.ok (some ⟨new_qty, new_avg⟩)

/-- `db.upsert_option_position(...)`, acting on the row for the given
`(account, symbol, expiry, right, strike)` key.  Mirrors `src/db.py` lines
237-266: same shape as the equity version but integer quantities and an
exact `new_qty < 0` check (no tolerance). -/
def upsert_option_position (row : Option OptionPos) (qty_delta : ℤ) (price : ℚ) :
    Except Err (Option OptionPos) :=
  match row with
  | none =>
      if qty_delta < 0 then Except.error Err.sellNonExisting
      else Except.ok (some ⟨qty_delta, price⟩)
  | some pos =>
      let new_qty := pos.qty + qty_delta
      if new_qty < 0 then Except.error Err.negativePosition
      else
        let new_avg :=
          if qty_delta > 0 then
            ((pos.qty : ℚ) * pos.avg_price + (qty_delta : ℚ) * price) / ((pos.qty : ℚ) + (qty_delta : ℚ))
          else if qty_delta < 0 then
            (if new_qty > 0 then pos.avg_price else pos.avg_price)
          else pos.avg_price
        if new_qty = 0 then Except.ok none
        else Except.ok (some ⟨new_qty, new_avg⟩)

/-- Order side, the result of `side.upper()` being `"BUY"` or `"SELL"`. -/
inductive Side where
  | buy
  | sell
  deriving DecidableEq, Repr

/-- Option order type, the result of `order_type.upper()`:
`"MARKET"` or `"LIMIT"` (any other string behaves like `market` in
`place_option_order`, which only tests for `"LIMIT"`). -/
inductive OrderType where
  | market
  | limit
  deriving DecidableEq, Repr

/-- Order status column; `place_option_order` only ever writes `'FILLED'`. -/
inductive OrderStatus where
  | open_
  | filled
  | cancelled
  deriving DecidableEq, Repr

/-- Ledger `kind` column values written by the option engine. -/
inductive LedgerKind where
  | trade_buy
  | trade_sell
  deriving DecidableEq, Repr

/-- A row of the option chain dataframe for one strike: the `bid`, `ask`
and `lastPrice` columns after the `float(... or 0.0)` coercions. -/
structure ChainRow where
  strike : ℚ
  bid : ℚ
  ask : ℚ
  last : ℚ
  deriving DecidableEq, Repr

/-- A row of the `option_orders` table (the columns `place_option_order`
writes that the claims mention). -/
structure OptionOrderRow where
  side : Side
  qty : ℤ
  order_type : OrderType
  limit_price : Option ℚ
  status : OrderStatus
  filled_qty : ℤ
  avg_fill_price : ℚ
  deriving DecidableEq, Repr

/-- A row of the `option_trades` table. -/
structure OptionTradeRow where
  qty : ℤ
  price : ℚ
  deriving DecidableEq, Repr

/-- A row of the `ledger` table. -/
structure LedgerRow where
  kind : LedgerKind
  amount : ℚ
  deriving DecidableEq, Repr

/-- The slice of the database state `place_option_order` touches: the three
append-only tables plus the option-position row for the traded contract's
key. -/
structure Db where
  option_orders : List OptionOrderRow
  option_trades : List OptionTradeRow
  ledger : List LedgerRow
  option_position : Option OptionPos
  deriving DecidableEq, Repr

/-- The empty database slice. -/
def Db.empty : Db := ⟨[], [], [], none⟩

/-- The reference price of `place_option_order` (`options.py` line 44):
`mid = (bid + ask) / 2 if (bid and ask) else (last or 0.0)`.
Python truthiness of a float is "nonzero", so the condition is
`bid ≠ 0 ∧ ask ≠ 0`; `last or 0.0` equals `last` as a rational. -/
def refPrice (r : ChainRow) : ℚ :=
  if r.bid ≠ 0 ∧ r.ask ≠ 0 then (r.bid + r.ask) / 2 else r.last

/-- The `if order_type.upper() == "LIMIT" and limit_price is not None:` guard
of `options.py` lines 48-52: the marketability check performed (and the only
place an order can be rejected for its price).  Returns `some limitNotMet`
when the source raises, `none` when it falls through. -/
def limitGate (side : Side) (order_type : OrderType) (limit_price : Option ℚ)
    (mid : ℚ) : Option Err :=
  match order_type, limit_price with
  | OrderType.limit, some lp =>
      match side with
      | Side.buy => if mid > lp then some Err.limitNotMet else none
      | Side.sell => if mid < lp then some Err.limitNotMet else none
  | _, _ => none

/-- The fill price after the guard of `options.py` lines 47-53:
`fill_price = mid`, overwritten with `limit_price` exactly when the order is
a LIMIT order with a limit price supplied. -/
def fillPriceOf (order_type : OrderType) (limit_price : Option ℚ) (mid : ℚ) : ℚ :=
  match order_type, limit_price with
  | OrderType.limit, some lp => lp
  | _, _ => mid

/-- The position delta passed to `upsert_option_position`: `qty` for BUY,
`-qty` for SELL (`options.py` lines 70 and 75). -/
def sideDelta (side : Side) (qty : ℤ) : ℤ :=
  match side with
  | Side.buy => qty
  | Side.sell => -qty

/-- Ledger `kind` written for a fill: `'trade_buy'` / `'trade_sell'`. -/
def ledgerKindOf (side : Side) : LedgerKind :=
  match side with
  | Side.buy => LedgerKind.trade_buy
  | Side.sell => LedgerKind.trade_sell

/-- Signed cash delta of a fill (`options.py` lines 65-72):
`notional = fill_price * qty * 100.0`, negated for BUY. -/
def cashDeltaOf (side : Side) (fill_price : ℚ) (qty : ℤ) : ℚ :=
  match side with
  | Side.buy => -(fill_price * (qty : ℚ) * 100)
  | Side.sell => fill_price * (qty : ℚ) * 100

/-- The three `db.execute` INSERTs of `options.py` lines 55-74: one
`option_orders` row (status `'FILLED'`, `filled_qty = qty`,
`avg_fill_price = fill_price`), one `option_trades` row, one `ledger` row.
Each commits on its own connection in the source, so they persist even if
the subsequent position update raises. -/
def fillRows (db : Db) (side : Side) (qty : ℤ) (order_type : OrderType)
    (limit_price : Option ℚ) (fill_price : ℚ) : Db :=
  { db with
    option_orders := db.option_orders ++
      [⟨side, qty, order_type, limit_price, OrderStatus.filled, qty, fill_price⟩],
    option_trades := db.option_trades ++ [⟨qty, fill_price⟩],
    ledger := db.ledger ++ [⟨ledgerKindOf side, cashDeltaOf side fill_price qty⟩] }

/-- `options.place_option_order(account_id, contract, side, qty, order_type,
limit_price)`, mirrored from `src/options.py` lines 34-77.  `chain` is the
calls-or-puts dataframe for the contract's expiry and right; the strike
lookup `chain_df.loc[chain_df["strike"] == contract.strike]` with `.iloc[0]`
takes the first matching row.  Returns the database state when the call
returns or when an exception escapes (each `db.execute` commits on its own
connection, so inserts performed before a `raise` persist), together with
`none` on success or `some e` for the escaped exception. -/
def place_option_order (db : Db) (chain : List ChainRow) (strike : ℚ)
    (side : Side) (qty : ℤ) (order_type : OrderType) (limit_price : Option ℚ) :
    Db × Option Err :=
  match chain.find? (fun r => decide (r.strike = strike)) with
  | none => (db, some Err.contractNotFound)
  | some r =>
      let mid := refPrice r
      if mid ≤ 0 then (db, some Err.noQuote)
      else
        match limitGate side order_type limit_price mid with
        | some e => (db, some e)
        | none =>
            let fill_price := fillPriceOf order_type limit_price mid
            let db1 := fillRows db side qty order_type limit_price fill_price
            match upsert_option_position db.option_position (sideDelta side qty) fill_price with
            | Except.error e => (db1, some e)
            | Except.ok newpos => ({ db1 with option_position := newpos }, none)

/-- The reference price as §4.3 of the spec words it: `(bid+ask)/2` when both
bid and ask are POSITIVE, else `last`.  Kept separate from `refPrice` (which
is translated from the code) to compare the two. -/
def refPriceSpec (r : ChainRow) : ℚ :=
  if r.bid > 0 ∧ r.ask > 0 then (r.bid + r.ask) / 2 else r.last

/-- Marketability of a limit order against reference price `mid` (§4.3 of
the spec): BUY requires `mid ≤ limitPrice`, SELL requires `mid ≥ limitPrice`.
This is the complement of the raise conditions in `options.py` lines 49-52. -/
def marketable (side : Side) (mid lp : ℚ) : Prop :=
  match side with
  | Side.buy => mid ≤ lp
  | Side.sell => lp ≤ mid

/-!
Helper lemmas shared by several claims: a case analysis of every path
through `place_option_order`.
-/

/-- A value returned through `limitGate` is always the limit rejection. -/
theorem limitGate_some (s : Side) (ot : OrderType) (lp : Option ℚ) (m : ℚ) (e : Err)
    (h : limitGate s ot lp m = some e) : e = Err.limitNotMet := by
  cases ot <;> cases lp <;> cases s <;> simp [limitGate] at h <;> simp_all

/-- Every run of `place_option_order` takes one of three shapes: an early
rejection that leaves the database untouched, a position failure after the
three inserts, or a full success. -/
theorem place_option_order_cases (db : Db) (chain : List ChainRow) (strike : ℚ)
    (s : Side) (qty : ℤ) (ot : OrderType) (lp : Option ℚ) :
    (∃ e, (e = Err.contractNotFound ∨ e = Err.noQuote ∨ e = Err.limitNotMet)
        ∧ place_option_order db chain strike s qty ot lp = (db, some e))
    ∨ (∃ p e, upsert_option_position db.option_position (sideDelta s qty) p = Except.error e
        ∧ place_option_order db chain strike s qty ot lp = (fillRows db s qty ot lp p, some e))
    ∨ (∃ p np, upsert_option_position db.option_position (sideDelta s qty) p = Except.ok np
        ∧ place_option_order db chain strike s qty ot lp
            = ({ fillRows db s qty ot lp p with option_position := np }, none)) := by
  rcases hfind : chain.find? (fun c => decide (c.strike = strike)) with _ | r
  · refine Or.inl ⟨Err.contractNotFound, Or.inl rfl, ?_⟩
    simp only [place_option_order, hfind]
  · by_cases hmid : refPrice r ≤ 0
    · refine Or.inl ⟨Err.noQuote, Or.inr (Or.inl rfl), ?_⟩
      simp only [place_option_order, hfind, if_pos hmid]
    · rcases hgate : limitGate s ot lp (refPrice r) with _ | e
      · rcases hup : upsert_option_position db.option_position (sideDelta s qty)
            (fillPriceOf ot lp (refPrice r)) with e | np
        · refine Or.inr (Or.inl ⟨fillPriceOf ot lp (refPrice r), e, hup, ?_⟩)
          simp only [place_option_order, hfind, if_neg hmid, hgate, hup]
        · refine Or.inr (Or.inr ⟨fillPriceOf ot lp (refPrice r), np, hup, ?_⟩)
          simp only [place_option_order, hfind, if_neg hmid, hgate, hup]
      · refine Or.inl ⟨e, Or.inr (Or.inr (limitGate_some s ot lp (refPrice r) e hgate)), ?_⟩
        simp only [place_option_order, hfind, if_neg hmid, hgate]

/-- Unfolding lemma for a run that gets past the quote checks and the limit
gate: the three rows are inserted, then the position update decides between
partial-failure and success. -/
theorem place_fill_eq (db : Db) (chain : List ChainRow) (strike : ℚ) (s : Side)
    (qty : ℤ) (ot : OrderType) (lp : Option ℚ) (r : ChainRow)
    (hfind : chain.find? (fun c => decide (c.strike = strike)) = some r)
    (hmid : 0 < refPrice r) (hgate : limitGate s ot lp (refPrice r) = none) :
    place_option_order db chain strike s qty ot lp
      = match upsert_option_position db.option_position (sideDelta s qty)
            (fillPriceOf ot lp (refPrice r)) with
        | Except.error e => (fillRows db s qty ot lp (fillPriceOf ot lp (refPrice r)), some e)
        | Except.ok np =>
            ({ fillRows db s qty ot lp (fillPriceOf ot lp (refPrice r)) with
                option_position := np }, none) := by
  rcases hup : upsert_option_position db.option_position (sideDelta s qty)
      (fillPriceOf ot lp (refPrice r)) with e | np <;>
    simp only [place_option_order, hfind, if_neg (not_le.mpr hmid), hgate, hup]

/-- Unfolding lemma: strike absent from the chain. -/
theorem place_notFound_eq (db : Db) (chain : List ChainRow) (strike : ℚ) (s : Side)
    (qty : ℤ) (ot : OrderType) (lp : Option ℚ)
    (hfind : chain.find? (fun c => decide (c.strike = strike)) = none) :
    place_option_order db chain strike s qty ot lp = (db, some Err.contractNotFound) := by
  simp only [place_option_order, hfind]

/-- Unfolding lemma: non-positive reference price. -/
theorem place_noQuote_eq (db : Db) (chain : List ChainRow) (strike : ℚ) (s : Side)
    (qty : ℤ) (ot : OrderType) (lp : Option ℚ) (r : ChainRow)
    (hfind : chain.find? (fun c => decide (c.strike = strike)) = some r)
    (hmid : refPrice r ≤ 0) :
    place_option_order db chain strike s qty ot lp = (db, some Err.noQuote) := by
  simp only [place_option_order, hfind, if_pos hmid]

/-- Unfolding lemma: rejection by the limit gate. -/
theorem place_reject_eq (db : Db) (chain : List ChainRow) (strike : ℚ) (s : Side)
    (qty : ℤ) (ot : OrderType) (lp : Option ℚ) (r : ChainRow) (e : Err)
    (hfind : chain.find? (fun c => decide (c.strike = strike)) = some r)
    (hmid : 0 < refPrice r) (hgate : limitGate s ot lp (refPrice r) = some e) :
    place_option_order db chain strike s qty ot lp = (db, some e) := by
  simp only [place_option_order, hfind, if_neg (not_le.mpr hmid), hgate]

/-- The only errors `upsert_option_position` raises are the two
position-violation ones. -/
theorem upsert_option_position_error (row : Option OptionPos) (d : ℤ) (p : ℚ) (e : Err)
    (h : upsert_option_position row d p = Except.error e) :
    e = Err.sellNonExisting ∨ e = Err.negativePosition := by
  cases row <;> simp only [upsert_option_position] at h <;>
    (repeat' split at h) <;> simp_all

/-- Positivity of the equity tolerance, used to discharge the threshold
check in several proofs. -/
theorem eqTol_pos : (0 : ℚ) < eqTol := by norm_num [eqTol]

/-!
Claim C2 (corrected).
-/

/-- Claim C2, counterexample: the claim says every sell delta `d < 0` with
`|d|` strictly greater than the held quantity `q` is rejected and the
position left unchanged.  For the equity store this fails: with `q = 1` and
`d = -(1 + 10^-10)` we have `|d| > q`, yet `upsert_position` succeeds and
persists a row with the negative quantity `-10^-10` (the `-1e-9` tolerance
admits it, and it is nonzero so the row is not deleted). -/
theorem C2_counterexample :
    ((-(1 + 1 / 10000000000) : ℚ) < 0 ∧ (1 : ℚ) < 1 + 1 / 10000000000)
    ∧ upsert_position (some ⟨1, 10⟩) (-(1 + 1 / 10000000000)) 10
        = Except.ok (some ⟨-(1 / 10000000000), 10⟩)
    ∧ (-(1 / 10000000000) : ℚ) < 0 := by
  refine ⟨⟨by norm_num, by norm_num⟩, ?_, by norm_num⟩
  norm_num [upsert_position, eqTol]

/-- Claim C2, amended: an over-selling fill is rejected with a
`PositionViolation` error and the table left unchanged — exactly when
`|d| > q` for option positions (and for any `d < 0` against a missing row),
but for equity positions only when the resulting quantity is below the
`-1e-9` tolerance (`q + d < -1e-9`); an equity sell with
`q < |d| ≤ q + 1e-9` is accepted and leaves a tiny negative quantity. -/
theorem C2_amended (qo : ℤ) (ao po : ℚ) (od : ℤ)
    (hqo : 0 ≤ qo) (hod : od < 0) (hmag : qo < -od)
    (q a d p : ℚ) (hq : 0 ≤ q) (hd : d < 0) (hmag2 : q + d < -eqTol)
    (d2 p2 : ℚ) (hd2 : d2 < 0) (od2 : ℤ) (po2 : ℚ) (hod2 : od2 < 0) :
    upsert_option_position (some ⟨qo, ao⟩) od po = Except.error Err.negativePosition
    ∧ upsert_option_position none od2 po2 = Except.error Err.sellNonExisting
    ∧ upsert_position (some ⟨q, a⟩) d p = Except.error Err.negativePosition
    ∧ upsert_position none d2 p2 = Except.error Err.sellNonExisting := by
  refine ⟨?_, ?_, ?_, ?_⟩
  · have hneg : qo + od < 0 := by omega
    simp [upsert_option_position, hneg]
  · simp [upsert_option_position, hod2]
  · simp [upsert_position, hmag2]
  · simp [upsert_position, hd2]

/-- Witness for `C2_amended` at `q = 1`, `d = -(1 + 2·10^-9)` (equity) and
`q = 1`, `d = -2` (options). -/
theorem C2_amended_witness :
    upsert_option_position (some ⟨1, 5⟩) (-2) 3 = Except.error Err.negativePosition
    ∧ upsert_option_position none (-3) 2 = Except.error Err.sellNonExisting
    ∧ upsert_position (some ⟨1, 10⟩) (-(1 + 2 / 1000000000)) 4
        = Except.error Err.negativePosition
    ∧ upsert_position none (-1) 1 = Except.error Err.sellNonExisting :=
  C2_amended 1 5 3 (-2) (by norm_num) (by norm_num) (by norm_num)
    1 10 (-(1 + 2 / 1000000000)) 4 (by norm_num) (by norm_num)
    (by norm_num [eqTol]) (-1) 1 (by norm_num) (-3) 2 (by norm_num)

/-!
Claim C3 (confirmed).
-/

/-- Claim C3: an increasing fill of `d > 0` at price `p` on a position with
quantity `q ≥ 0` and average cost `a` sets the average to exactly
`(q·a + d·p)/(q + d)` — in both stores — and two consecutive BUY fills of
`q1@p1` then `q2@p2` starting from no position yield quantity `q1 + q2` and
average `(q1·p1 + q2·p2)/(q1 + q2)`. -/
theorem C3_weighted_average (q a d p : ℚ) (hq : 0 ≤ q) (hd : 0 < d)
    (qo : ℤ) (ao po : ℚ) (od : ℤ) (hqo : 0 ≤ qo) (hod : 0 < od)
    (q1 p1 q2 p2 : ℚ) (h1 : 0 < q1) (h2 : 0 < q2) :
    upsert_position (some ⟨q, a⟩) d p
      = Except.ok (some ⟨q + d, (q * a + d * p) / (q + d)⟩)
    ∧ upsert_option_position (some ⟨qo, ao⟩) od po
      = Except.ok (some ⟨qo + od,
          ((qo : ℚ) * ao + (od : ℚ) * po) / ((qo : ℚ) + (od : ℚ))⟩)
    ∧ upsert_position none q1 p1 = Except.ok (some ⟨q1, p1⟩)
    ∧ upsert_position (some ⟨q1, p1⟩) q2 p2
      = Except.ok (some ⟨q1 + q2, (q1 * p1 + q2 * p2) / (q1 + q2)⟩) := by
  have htol := eqTol_pos
  refine ⟨?_, ?_, ?_, ?_⟩
  · have hgt : (0 : ℚ) < q + d := by linarith
    have hthr : ¬(q + d < -eqTol) := by linarith
    have hne : q + d ≠ 0 := ne_of_gt hgt
    simp [upsert_position, hthr, hd, hne, not_lt.mpr (le_of_lt hd)]
  · have hgt : (0 : ℤ) < qo + od := by omega
    have hthr : ¬(qo + od < 0) := by omega
    have hne : qo + od ≠ 0 := by omega
    simp [upsert_option_position, hthr, hod, hne]
  · simp [upsert_position, not_lt.mpr (le_of_lt h1)]
  · have hgt : (0 : ℚ) < q1 + q2 := by linarith
    have hthr : ¬(q1 + q2 < -eqTol) := by linarith
    have hne : q1 + q2 ≠ 0 := ne_of_gt hgt
    simp [upsert_position, hthr, h2, hne]

/-- Witness for `C3_weighted_average`: `1@2` plus `3@4` averages `7/2`;
`2@5` plus `6@7` averages `13/2`; fresh BUYs `1@10` then `2@13` average
`12`. -/
theorem C3_weighted_average_witness :
    upsert_position (some ⟨1, 2⟩) 3 4 = Except.ok (some ⟨4, 7 / 2⟩)
    ∧ upsert_option_position (some ⟨2, 5⟩) 6 7 = Except.ok (some ⟨8, 13 / 2⟩)
    ∧ upsert_position none 1 10 = Except.ok (some ⟨1, 10⟩)
    ∧ upsert_position (some ⟨1, 10⟩) 2 13 = Except.ok (some ⟨3, 12⟩) := by
  have h := C3_weighted_average 1 2 3 4 (by norm_num) (by norm_num)
    2 5 7 6 (by norm_num) (by norm_num) 1 10 2 13 (by norm_num) (by norm_num)
  norm_num at h
  exact h

/-!
Claim C4 (confirmed).
-/

/-- Claim C4: a decreasing fill `d < 0` with `|d| ≤ q` on an existing
position `(q, a)` succeeds and never recomputes the average cost: the
result keeps average exactly `a` (or is the deletion of the row when the
quantity reaches zero); only the quantity changes — in both stores. -/
theorem C4_sell_keeps_avg (q a d p : ℚ) (hd : d < 0) (hdq : -d ≤ q)
    (qo : ℤ) (ao po : ℚ) (od : ℤ) (hod : od < 0) (hodq : -od ≤ qo) :
    upsert_position (some ⟨q, a⟩) d p
      = Except.ok (if q + d = 0 then none else some ⟨q + d, a⟩)
    ∧ upsert_option_position (some ⟨qo, ao⟩) od po
      = Except.ok (if qo + od = 0 then none else some ⟨qo + od, ao⟩) := by
  have htol := eqTol_pos
  constructor
  · have h0 : (0 : ℚ) ≤ q + d := by linarith
    have hthr : ¬(q + d < -eqTol) := by linarith
    have hnd : ¬(0 : ℚ) < d := not_lt.mpr (le_of_lt hd)
    simp only [upsert_position, hthr, if_false, hnd, hd, if_true, ite_self,
      gt_iff_lt, if_neg hnd, if_pos hd]
    split <;> simp_all
  · have hthr : ¬(qo + od < 0) := by omega
    have hnd : ¬(0 : ℤ) < od := by omega
    simp only [upsert_option_position, hthr, if_false, gt_iff_lt, if_neg hnd,
      if_pos hod, ite_self]
    split <;> simp_all

/-- Witness for `C4_sell_keeps_avg`: selling 4 of 10 equity shares held at
average 5 leaves `(6, 5)`; selling 1 of 3 option contracts held at average
2 leaves `(2, 2)`. -/
theorem C4_sell_keeps_avg_witness :
    upsert_position (some ⟨10, 5⟩) (-4) 7 = Except.ok (some ⟨6, 5⟩)
    ∧ upsert_option_position (some ⟨3, 2⟩) (-1) 9 = Except.ok (some ⟨2, 2⟩) := by
  have h := C4_sell_keeps_avg 10 5 (-4) 7 (by norm_num) (by norm_num)
    3 2 9 (-1) (by norm_num) (by norm_num)
  norm_num at h
  exact h

/-!
Claim C5 (confirmed).
-/

/-- Claim C5: a fill whose resulting quantity is exactly zero deletes the
position row (no zero-quantity row remains), whatever the prior quantity
and average were; and the next increasing fill on the same key starts a
fresh position whose average cost is that fill's own price — in both
stores. -/
theorem C5_zero_deletes_fresh_restart (q a d p : ℚ) (hz : q + d = 0)
    (d2 p2 : ℚ) (hd2 : 0 < d2)
    (qo : ℤ) (ao po : ℚ) (od : ℤ) (hzo : qo + od = 0)
    (od2 : ℤ) (po2 : ℚ) (hod2 : 0 < od2) :
    upsert_position (some ⟨q, a⟩) d p = Except.ok none
    ∧ upsert_position none d2 p2 = Except.ok (some ⟨d2, p2⟩)
    ∧ upsert_option_position (some ⟨qo, ao⟩) od po = Except.ok none
    ∧ upsert_option_position none od2 po2 = Except.ok (some ⟨od2, po2⟩) := by
  have htol := eqTol_pos
  refine ⟨?_, ?_, ?_, ?_⟩
  · have hthr : ¬(q + d < -eqTol) := by rw [hz]; linarith
    simp [upsert_position, hthr, hz, le_of_lt htol]
  · simp [upsert_position, not_lt.mpr (le_of_lt hd2)]
  · have hthr : ¬(qo + od < 0) := by omega
    simp [upsert_option_position, hthr, hzo]
  · simp [upsert_option_position, not_lt.mpr (le_of_lt hod2)]

/-- Witness for `C5_zero_deletes_fresh_restart`: selling the whole equity
position `(2, 3)` deletes the row and a following BUY `5@6` restarts at
average 6; same on the option store. -/
theorem C5_zero_deletes_fresh_restart_witness :
    upsert_position (some ⟨2, 3⟩) (-2) 4 = Except.ok none
    ∧ upsert_position none 5 6 = Except.ok (some ⟨5, 6⟩)
    ∧ upsert_option_position (some ⟨1, 2⟩) (-1) 3 = Except.ok none
    ∧ upsert_option_position none 4 (9 / 2) = Except.ok (some ⟨4, 9 / 2⟩) := by
  have h := C5_zero_deletes_fresh_restart 2 3 (-2) 4 (by norm_num) 5 6 (by norm_num)
    1 2 3 (-1) (by norm_num) 4 (9 / 2) (by norm_num)
  norm_num at h
  exact h

/-!
Claim C10 (confirmed).
-/

/-- Claim C10: `upsert_position` with `qty_delta = 0` against a missing row
does not fail — it inserts a position row with quantity `0` and
`avg_price = p`, so a zero-quantity position row can exist after this store
operation. -/
theorem C10_zero_delta_inserts_zero_row (p : ℚ) :
    upsert_position none 0 p = Except.ok (some ⟨0, p⟩) := by
  simp [upsert_position]

/-!
Claim C1 (corrected).
-/

/-- Claim C1, counterexample: the claim says a fill that would leave a
negative option position fails with no partial state written (no order, no
trade, no ledger entry).  On the code, selling 2 contracts while holding 1
(chain row strike 100 with bid 2 / ask 4, so mid 3) does raise the
`PositionViolation`, but the order row (already marked FILLED), the trade
row and the ledger entry have all been persisted; only the position is
untouched. -/
theorem C1_counterexample :
    place_option_order { Db.empty with option_position := some ⟨1, 5⟩ }
        [⟨100, 2, 4, 3⟩] 100 Side.sell 2 OrderType.market none
      = ({ option_orders :=
             [⟨Side.sell, 2, OrderType.market, none, OrderStatus.filled, 2, 3⟩],
           option_trades := [⟨2, 3⟩],
           ledger := [⟨LedgerKind.trade_sell, 600⟩],
           option_position := some ⟨1, 5⟩ }, some Err.negativePosition) := by
  norm_num [place_option_order, refPrice, limitGate, fillPriceOf, sideDelta,
    fillRows, ledgerKindOf, cashDeltaOf, upsert_option_position, Db.empty,
    List.find?]

/-- Claim C1, amended: when the position update raises a `PositionViolation`
(selling more contracts than held, or selling with no position), the call
fails and the position row is unchanged — but the write is not atomic:
exactly one order row (status FILLED), one trade row and one ledger entry
have already been persisted by that failed call. -/
theorem C1_amended_partial_write (db : Db) (chain : List ChainRow) (strike : ℚ)
    (s : Side) (qty : ℤ) (ot : OrderType) (lp : Option ℚ) (e : Err)
    (he : (place_option_order db chain strike s qty ot lp).2 = some e)
    (hpos : e = Err.sellNonExisting ∨ e = Err.negativePosition) :
    (place_option_order db chain strike s qty ot lp).1.option_position
      = db.option_position
    ∧ ∃ p, (place_option_order db chain strike s qty ot lp).1.option_orders
          = db.option_orders ++ [⟨s, qty, ot, lp, OrderStatus.filled, qty, p⟩]
        ∧ (place_option_order db chain strike s qty ot lp).1.option_trades
          = db.option_trades ++ [⟨qty, p⟩]
        ∧ (place_option_order db chain strike s qty ot lp).1.ledger
          = db.ledger ++ [⟨ledgerKindOf s, cashDeltaOf s p qty⟩] := by
  rcases place_option_order_cases db chain strike s qty ot lp with
    ⟨e2, he2, heq⟩ | ⟨p, e2, hup, heq⟩ | ⟨p, np, hup, heq⟩
  · rw [heq] at he
    simp only [Option.some.injEq] at he
    rcases he2 with h | h | h <;> rcases hpos with h2 | h2 <;> simp_all
  · rw [heq]
    exact ⟨rfl, p, by simp [fillRows], by simp [fillRows], by simp [fillRows]⟩
  · rw [heq] at he
    simp at he

/-- Witness for `C1_amended_partial_write` at the concrete over-sell input:
holding 1 contract at average 5, a MARKET SELL of 2 contracts at mid 3. -/
theorem C1_amended_partial_write_witness :
    (place_option_order { Db.empty with option_position := some ⟨1, 5⟩ }
        [⟨100, 2, 4, 3⟩] 100 Side.sell 2 OrderType.market none).1.option_position
      = ({ Db.empty with option_position := some ⟨1, 5⟩ } : Db).option_position
    ∧ ∃ p, (place_option_order { Db.empty with option_position := some ⟨1, 5⟩ }
          [⟨100, 2, 4, 3⟩] 100 Side.sell 2 OrderType.market none).1.option_orders
          = ({ Db.empty with option_position := some ⟨1, 5⟩ } : Db).option_orders
            ++ [⟨Side.sell, 2, OrderType.market, none, OrderStatus.filled, 2, p⟩]
        ∧ (place_option_order { Db.empty with option_position := some ⟨1, 5⟩ }
          [⟨100, 2, 4, 3⟩] 100 Side.sell 2 OrderType.market none).1.option_trades
          = ({ Db.empty with option_position := some ⟨1, 5⟩ } : Db).option_trades
            ++ [⟨2, p⟩]
        ∧ (place_option_order { Db.empty with option_position := some ⟨1, 5⟩ }
          [⟨100, 2, 4, 3⟩] 100 Side.sell 2 OrderType.market none).1.ledger
          = ({ Db.empty with option_position := some ⟨1, 5⟩ } : Db).ledger
            ++ [⟨ledgerKindOf Side.sell, cashDeltaOf Side.sell p 2⟩] :=
  C1_amended_partial_write { Db.empty with option_position := some ⟨1, 5⟩ }
    [⟨100, 2, 4, 3⟩] 100 Side.sell 2 OrderType.market none Err.negativePosition
    (by norm_num [place_option_order, refPrice, limitGate, fillPriceOf, sideDelta,
      fillRows, ledgerKindOf, cashDeltaOf, upsert_option_position, Db.empty,
      List.find?])
    (Or.inr rfl)

/-!
Claim C6 (confirmed).
-/

/-- Claim C6: for an option LIMIT order with a supplied limit price, against
a quoted contract with positive reference price `mid`: if the order is not
marketable (BUY with `mid > limitPrice`, SELL with `mid < limitPrice`) the
call fails with `LimitNotMetError` and writes nothing; if marketable, the
order and trade rows record a fill at exactly the limit price with status
FILLED.  Moreover no order row produced by `place_option_order` under any
order type is ever OPEN: every persisted order row has status FILLED. -/
theorem C6_limit_fill_policy (db : Db) (chain : List ChainRow) (strike : ℚ)
    (s : Side) (qty : ℤ) (lp : ℚ) (r : ChainRow)
    (hfind : chain.find? (fun c => decide (c.strike = strike)) = some r)
    (hmid : 0 < refPrice r) :
    (¬ marketable s (refPrice r) lp →
        place_option_order db chain strike s qty OrderType.limit (some lp)
          = (db, some Err.limitNotMet))
    ∧ (marketable s (refPrice r) lp →
        (place_option_order db chain strike s qty OrderType.limit (some lp)).1.option_orders
          = db.option_orders
            ++ [⟨s, qty, OrderType.limit, some lp, OrderStatus.filled, qty, lp⟩]
        ∧ (place_option_order db chain strike s qty OrderType.limit (some lp)).1.option_trades
          = db.option_trades ++ [⟨qty, lp⟩])
    ∧ (∀ ot lp2 o, o ∈ (place_option_order db chain strike s qty ot lp2).1.option_orders →
        o ∈ db.option_orders ∨ o.status = OrderStatus.filled) := by
  refine ⟨?_, ?_, ?_⟩
  · intro hnm
    have hgate : limitGate s OrderType.limit (some lp) (refPrice r)
        = some Err.limitNotMet := by
      cases s <;> simp_all [limitGate, marketable, not_le]
    exact place_reject_eq db chain strike s qty OrderType.limit (some lp) r
      Err.limitNotMet hfind hmid hgate
  · intro hm
    have hgate : limitGate s OrderType.limit (some lp) (refPrice r) = none := by
      cases s <;> simp_all [limitGate, marketable, not_lt]
    have heq := place_fill_eq db chain strike s qty OrderType.limit (some lp) r
      hfind hmid hgate
    rw [heq]
    rcases hup : upsert_option_position db.option_position (sideDelta s qty)
        (fillPriceOf OrderType.limit (some lp) (refPrice r)) with e | np <;>
      simp [fillRows, fillPriceOf]
  · intro ot lp2 o ho
    rcases place_option_order_cases db chain strike s qty ot lp2 with
      ⟨e, _, heq⟩ | ⟨p, e, _, heq⟩ | ⟨p, np, _, heq⟩ <;> rw [heq] at ho
    · exact Or.inl ho
    · simp only [fillRows, List.mem_append, List.mem_singleton] at ho
      rcases ho with ho | ho
      · exact Or.inl ho
      · right; rw [ho]
    · simp only [fillRows, List.mem_append, List.mem_singleton] at ho
      rcases ho with ho | ho
      · exact Or.inl ho
      · right; rw [ho]

/-- Witness for `C6_limit_fill_policy`: BUY LIMIT 1 contract at limit 7/2
when mid is 3 (marketable) fills at exactly 7/2. -/
theorem C6_limit_fill_policy_witness :
    (place_option_order Db.empty [⟨100, 2, 4, 3⟩] 100 Side.buy 1 OrderType.limit
        (some (7 / 2))).1.option_orders
      = Db.empty.option_orders
        ++ [⟨Side.buy, 1, OrderType.limit, some (7 / 2), OrderStatus.filled, 1, 7 / 2⟩]
    ∧ (place_option_order Db.empty [⟨100, 2, 4, 3⟩] 100 Side.buy 1 OrderType.limit
        (some (7 / 2))).1.option_trades
      = Db.empty.option_trades ++ [⟨1, 7 / 2⟩] :=
  (C6_limit_fill_policy Db.empty [⟨100, 2, 4, 3⟩] 100 Side.buy 1 (7 / 2)
      ⟨100, 2, 4, 3⟩ (by simp [List.find?]) (by norm_num [refPrice])).2.1
    (by norm_num [marketable, refPrice])

/-!
Claim C7 (corrected).
-/

/-- Claim C7, counterexample: the claim says `mid = (bid+ask)/2` only when
both bid and ask are positive, else the price falls back to `last`.  The
code tests Python truthiness (nonzero), not positivity: with
`bid = -1, ask = 3, last = 5`, the claim's reference price is `last = 5`,
but the code computes `mid = (-1+3)/2 = 1` and a MARKET BUY fills (and
records its trade) at price `1`, not `5`. -/
theorem C7_counterexample :
    refPriceSpec ⟨100, -1, 3, 5⟩ = 5
    ∧ place_option_order Db.empty [⟨100, -1, 3, 5⟩] 100 Side.buy 1
        OrderType.market none
      = ({ option_orders :=
             [⟨Side.buy, 1, OrderType.market, none, OrderStatus.filled, 1, 1⟩],
           option_trades := [⟨1, 1⟩],
           ledger := [⟨LedgerKind.trade_buy, -100⟩],
           option_position := some ⟨1, 1⟩ }, none)
    ∧ (1 : ℚ) ≠ 5 := by
  refine ⟨by norm_num [refPriceSpec], ?_, by norm_num⟩
  norm_num [place_option_order, refPrice, limitGate, fillPriceOf, sideDelta,
    fillRows, ledgerKindOf, cashDeltaOf, upsert_option_position, Db.empty,
    List.find?]

/-- Claim C7, amended: the reference price is `mid = (bid+ask)/2` when both
bid and ask are NONZERO (Python truthiness), else `last`; the call fails
with `ContractNotFoundError` when the strike is absent from the chain and
with `NoQuoteError` when the computed `mid` is not positive, in both cases
writing nothing; and a MARKET order that passes these checks records its
order and trade rows at exactly `mid`. -/
theorem C7_amended_reference_price (db : Db) (chain : List ChainRow) (strike : ℚ)
    (s : Side) (qty : ℤ) (lp : Option ℚ) :
    (chain.find? (fun c => decide (c.strike = strike)) = none →
        place_option_order db chain strike s qty OrderType.market lp
          = (db, some Err.contractNotFound))
    ∧ ∀ r, chain.find? (fun c => decide (c.strike = strike)) = some r →
        (refPrice r = if r.bid ≠ 0 ∧ r.ask ≠ 0 then (r.bid + r.ask) / 2 else r.last)
        ∧ (refPrice r ≤ 0 →
            place_option_order db chain strike s qty OrderType.market lp
              = (db, some Err.noQuote))
        ∧ (0 < refPrice r →
            (place_option_order db chain strike s qty OrderType.market lp).1.option_orders
              = db.option_orders
                ++ [⟨s, qty, OrderType.market, lp, OrderStatus.filled, qty, refPrice r⟩]
            ∧ (place_option_order db chain strike s qty OrderType.market lp).1.option_trades
              = db.option_trades ++ [⟨qty, refPrice r⟩]) := by
  refine ⟨fun hfind => place_notFound_eq db chain strike s qty OrderType.market lp hfind,
    fun r hfind => ⟨rfl, fun hmid =>
      place_noQuote_eq db chain strike s qty OrderType.market lp r hfind hmid,
      fun hmid => ?_⟩⟩
  have hgate : limitGate s OrderType.market lp (refPrice r) = none := by
    cases lp <;> cases s <;> rfl
  have heq := place_fill_eq db chain strike s qty OrderType.market lp r hfind hmid hgate
  rw [heq]
  have hfp : fillPriceOf OrderType.market lp (refPrice r) = refPrice r := by
    cases lp <;> rfl
  rcases hup : upsert_option_position db.option_position (sideDelta s qty)
      (fillPriceOf OrderType.market lp (refPrice r)) with e | np <;>
    simp [fillRows, hfp]

/-- Witness for `C7_amended_reference_price`: with chain row
`(strike 100, bid 2, ask 4, last 3)` the reference price is `3` and a
MARKET BUY of one contract records its trade at exactly `3`. -/
theorem C7_amended_reference_price_witness :
    (place_option_order Db.empty [⟨100, 2, 4, 3⟩] 100 Side.buy 1
        OrderType.market none).1.option_trades
      = Db.empty.option_trades ++ [⟨1, refPrice ⟨100, 2, 4, 3⟩⟩] :=
  (((C7_amended_reference_price Db.empty [⟨100, 2, 4, 3⟩] 100 Side.buy 1 none).2
      ⟨100, 2, 4, 3⟩ (by simp [List.find?])).2.2 (by norm_num [refPrice])).2

/-!
Claim C8 (corrected).
-/

/-- Claim C8, counterexample: the claim says an order request with
non-positive quantity fails with `ValidationError` before any state change
and is never persisted.  The code performs no such validation: a MARKET BUY
of 0 contracts (non-positive) succeeds and persists an order row with
`qty = 0` (and a zero-quantity position row). -/
theorem C8_counterexample :
    ¬((0 : ℤ) > 0)
    ∧ place_option_order Db.empty [⟨100, 2, 4, 3⟩] 100 Side.buy 0
        OrderType.market none
      = ({ option_orders :=
             [⟨Side.buy, 0, OrderType.market, none, OrderStatus.filled, 0, 3⟩],
           option_trades := [⟨0, 3⟩],
           ledger := [⟨LedgerKind.trade_buy, 0⟩],
           option_position := some ⟨0, 3⟩ }, none) := by
  refine ⟨by norm_num, ?_⟩
  norm_num [place_option_order, refPrice, limitGate, fillPriceOf, sideDelta,
    fillRows, ledgerKindOf, cashDeltaOf, upsert_option_position, Db.empty,
    List.find?]

/-- Claim C8, amended: `place_option_order` performs no request validation:
an order with non-positive quantity is not rejected — whenever the quote
checks pass, an order row carrying that quantity is persisted; and a LIMIT
order with no limit price is likewise not rejected — it bypasses the
marketability check and fills at `mid` as if it were a MARKET order. -/
theorem C8_amended_no_validation (db : Db) (chain : List ChainRow) (strike : ℚ)
    (s : Side) (qty : ℤ) (r : ChainRow) (hqty : qty ≤ 0)
    (hfind : chain.find? (fun c => decide (c.strike = strike)) = some r)
    (hmid : 0 < refPrice r) :
    (place_option_order db chain strike s qty OrderType.market none).1.option_orders
      = db.option_orders
        ++ [⟨s, qty, OrderType.market, none, OrderStatus.filled, qty, refPrice r⟩]
    ∧ (place_option_order db chain strike s qty OrderType.limit none).1.option_orders
      = db.option_orders
        ++ [⟨s, qty, OrderType.limit, none, OrderStatus.filled, qty, refPrice r⟩]
    ∧ (place_option_order db chain strike s qty OrderType.limit none).1.option_trades
      = db.option_trades ++ [⟨qty, refPrice r⟩] := by
  have hgm : limitGate s OrderType.market none (refPrice r) = none := by
    cases s <;> rfl
  have hgl : limitGate s OrderType.limit none (refPrice r) = none := by
    cases s <;> rfl
  have hm := place_fill_eq db chain strike s qty OrderType.market none r hfind hmid hgm
  have hl := place_fill_eq db chain strike s qty OrderType.limit none r hfind hmid hgl
  refine ⟨?_, ?_, ?_⟩
  · rw [hm]
    rcases hup : upsert_option_position db.option_position (sideDelta s qty)
        (fillPriceOf OrderType.market none (refPrice r)) with e | np <;>
      simp [fillRows, fillPriceOf]
  · rw [hl]
    rcases hup : upsert_option_position db.option_position (sideDelta s qty)
        (fillPriceOf OrderType.limit none (refPrice r)) with e | np <;>
      simp [fillRows, fillPriceOf]
  · rw [hl]
    rcases hup : upsert_option_position db.option_position (sideDelta s qty)
        (fillPriceOf OrderType.limit none (refPrice r)) with e | np <;>
      simp [fillRows, fillPriceOf]

/-- Witness for `C8_amended_no_validation` at quantity `0` against the chain
row `(100, bid 2, ask 4, last 3)`. -/
theorem C8_amended_no_validation_witness :
    (place_option_order Db.empty [⟨100, 2, 4, 3⟩] 100 Side.buy 0
        OrderType.market none).1.option_orders
      = Db.empty.option_orders
        ++ [⟨Side.buy, 0, OrderType.market, none, OrderStatus.filled, 0,
             refPrice ⟨100, 2, 4, 3⟩⟩]
    ∧ (place_option_order Db.empty [⟨100, 2, 4, 3⟩] 100 Side.buy 0
        OrderType.limit none).1.option_orders
      = Db.empty.option_orders
        ++ [⟨Side.buy, 0, OrderType.limit, none, OrderStatus.filled, 0,
             refPrice ⟨100, 2, 4, 3⟩⟩]
    ∧ (place_option_order Db.empty [⟨100, 2, 4, 3⟩] 100 Side.buy 0
        OrderType.limit none).1.option_trades
      = Db.empty.option_trades ++ [⟨0, refPrice ⟨100, 2, 4, 3⟩⟩] :=
  C8_amended_no_validation Db.empty [⟨100, 2, 4, 3⟩] 100 Side.buy 0
    ⟨100, 2, 4, 3⟩ (by norm_num) (by simp [List.find?]) (by norm_num [refPrice])

/-!
Claim C9 (confirmed).
-/

/-- Claim C9: every successful `place_option_order` call of quantity `q`
creates exactly one order row with status FILLED, `filled_qty = q` and
`avg_fill_price` equal to the fill price `p`, exactly one trade row with
quantity `q` and price `p`, and exactly one ledger entry whose signed cash
amount is `-p·q·100` for BUY and `+p·q·100` for SELL. -/
theorem C9_fill_records (db : Db) (chain : List ChainRow) (strike : ℚ)
    (s : Side) (qty : ℤ) (ot : OrderType) (lp : Option ℚ)
    (hs : (place_option_order db chain strike s qty ot lp).2 = none) :
    ∃ p, (place_option_order db chain strike s qty ot lp).1.option_orders
          = db.option_orders ++ [⟨s, qty, ot, lp, OrderStatus.filled, qty, p⟩]
      ∧ (place_option_order db chain strike s qty ot lp).1.option_trades
          = db.option_trades ++ [⟨qty, p⟩]
      ∧ (place_option_order db chain strike s qty ot lp).1.ledger
          = db.ledger ++ [⟨ledgerKindOf s,
              match s with
              | Side.buy => -(p * (qty : ℚ) * 100)
              | Side.sell => p * (qty : ℚ) * 100⟩] := by
  rcases place_option_order_cases db chain strike s qty ot lp with
    ⟨e, _, heq⟩ | ⟨p, e, _, heq⟩ | ⟨p, np, hup, heq⟩
  · rw [heq] at hs; simp at hs
  · rw [heq] at hs; simp at hs
  · rw [heq]
    refine ⟨p, by simp [fillRows], by simp [fillRows], ?_⟩
    cases s <;> simp [fillRows, ledgerKindOf, cashDeltaOf]

/-- Witness for `C9_fill_records`: a successful MARKET SELL of 2 contracts
starting from a position of 5 at average 2, chain row `(100, 2, 4, 3)`. -/
theorem C9_fill_records_witness :
    ∃ p, (place_option_order { Db.empty with option_position := some ⟨5, 2⟩ }
          [⟨100, 2, 4, 3⟩] 100 Side.sell 2 OrderType.market none).1.option_orders
          = ({ Db.empty with option_position := some ⟨5, 2⟩ } : Db).option_orders
            ++ [⟨Side.sell, 2, OrderType.market, none, OrderStatus.filled, 2, p⟩]
      ∧ (place_option_order { Db.empty with option_position := some ⟨5, 2⟩ }
          [⟨100, 2, 4, 3⟩] 100 Side.sell 2 OrderType.market none).1.option_trades
          = ({ Db.empty with option_position := some ⟨5, 2⟩ } : Db).option_trades
            ++ [⟨2, p⟩]
      ∧ (place_option_order { Db.empty with option_position := some ⟨5, 2⟩ }
          [⟨100, 2, 4, 3⟩] 100 Side.sell 2 OrderType.market none).1.ledger
          = ({ Db.empty with option_position := some ⟨5, 2⟩ } : Db).ledger
            ++ [⟨ledgerKindOf Side.sell,
                match Side.sell with
                | Side.buy => -(p * ((2 : ℤ) : ℚ) * 100)
                | Side.sell => p * ((2 : ℤ) : ℚ) * 100⟩] :=
  C9_fill_records { Db.empty with option_position := some ⟨5, 2⟩ }
    [⟨100, 2, 4, 3⟩] 100 Side.sell 2 OrderType.market none
    (by norm_num [place_option_order, refPrice, limitGate, fillPriceOf, sideDelta,
      fillRows, ledgerKindOf, cashDeltaOf, upsert_option_position, Db.empty,
      List.find?])

end TradingApp
